import Mathlib

/-!
# Verification of the `rcpt` command wrapper (`src/main.rs`)

A shallow embedding of the `rcpt` receipt-emitting command wrapper:

* byte strings (`OsString`, captured stdout/stderr) are `List Nat`;
* the operating system (process spawning, wall clock, monotonic clock) is an
  explicit oracle `Env`;
* the file system is an explicit state `FS` with an error oracle `failPaths`
  marking the paths on which I/O operations fail;
* `String::from_utf8_lossy` / `OsStr::to_string_lossy` is embedded as a
  code-point level decoder `utf8DecodeLossy` following the Rust standard
  library's validation automaton (replacement of maximal subparts);
* `serde_json` serialization of `Receipt` is embedded at the JSON document
  level (`Json`, `receiptToJson`), with chrono's RFC 3339 timestamp codec kept
  as a parameter `fmtTs`/`parseTs` since it lives outside this repository.
-/

namespace AgentReceipts

/-! ## Lossy UTF-8 decoding (`String::from_utf8_lossy`, `OsStr::to_string_lossy`)

The decoder works on byte lists and produces Unicode scalar values as `Nat`s.
It follows the Rust standard library's UTF-8 validation: one replacement
character `U+FFFD` is substituted for each maximal subpart of an ill-formed
subsequence. -/

/-- The Unicode replacement character U+FFFD, substituted for ill-formed
byte sequences. -/
def replCp : Nat := 0xFFFD

/-- `v` is a Unicode scalar value (what a decoded code point must be). -/
def ValidCp (v : Nat) : Prop := v < 0xD800 ∨ (0xDFFF < v ∧ v < 0x110000)

instance (v : Nat) : Decidable (ValidCp v) := by unfold ValidCp; infer_instance

/-- Lossy UTF-8 decoding of a byte list into Unicode scalar values, following
the Rust standard library's validation automaton: ASCII bytes, 2-byte
sequences led by `C2..DF`, 3-byte sequences led by `E0..EF` (with the `E0`
over-long and `ED` surrogate exclusions on the first continuation), 4-byte
sequences led by `F0..F4` (with the `F0` over-long and `F4` out-of-range
exclusions); every other byte, truncated sequence, or failed continuation
yields one replacement character for the maximal valid prefix consumed. -/
def utf8DecodeLossy : List Nat → List Nat
  | [] => []
  | b :: rest =>
    if b < 0x80 then
      b :: utf8DecodeLossy rest
    else if 0xC2 ≤ b ∧ b ≤ 0xDF then
      match rest with
      | [] => [replCp]
      | c1 :: rest1 =>
        if 0x80 ≤ c1 ∧ c1 ≤ 0xBF then
          ((b - 0xC0) * 0x40 + (c1 - 0x80)) :: utf8DecodeLossy rest1
        else
          replCp :: utf8DecodeLossy (c1 :: rest1)
    else if 0xE0 ≤ b ∧ b ≤ 0xEF then
      match rest with
      | [] => [replCp]
      | c1 :: rest1 =>
        if (b = 0xE0 ∧ 0xA0 ≤ c1 ∧ c1 ≤ 0xBF) ∨
           (b = 0xED ∧ 0x80 ≤ c1 ∧ c1 ≤ 0x9F) ∨
           (b ≠ 0xE0 ∧ b ≠ 0xED ∧ 0x80 ≤ c1 ∧ c1 ≤ 0xBF) then
          match rest1 with
          | [] => [replCp]
          | c2 :: rest2 =>
            if 0x80 ≤ c2 ∧ c2 ≤ 0xBF then
              ((b - 0xE0) * 0x1000 + (c1 - 0x80) * 0x40 + (c2 - 0x80)) ::
                utf8DecodeLossy rest2
            else
              replCp :: utf8DecodeLossy (c2 :: rest2)
        else
          replCp :: utf8DecodeLossy (c1 :: rest1)
    else if 0xF0 ≤ b ∧ b ≤ 0xF4 then
      match rest with
      | [] => [replCp]
      | c1 :: rest1 =>
        if (b = 0xF0 ∧ 0x90 ≤ c1 ∧ c1 ≤ 0xBF) ∨
           (b = 0xF4 ∧ 0x80 ≤ c1 ∧ c1 ≤ 0x8F) ∨
           (b ≠ 0xF0 ∧ b ≠ 0xF4 ∧ 0x80 ≤ c1 ∧ c1 ≤ 0xBF) then
          match rest1 with
          | [] => [replCp]
          | c2 :: rest2 =>
            if 0x80 ≤ c2 ∧ c2 ≤ 0xBF then
              match rest2 with
              | [] => [replCp]
              | c3 :: rest3 =>
                if 0x80 ≤ c3 ∧ c3 ≤ 0xBF then
                  ((b - 0xF0) * 0x40000 + (c1 - 0x80) * 0x1000 +
                      (c2 - 0x80) * 0x40 + (c3 - 0x80)) ::
                    utf8DecodeLossy rest3
                else
                  replCp :: utf8DecodeLossy (c3 :: rest3)
            else
              replCp :: utf8DecodeLossy (c2 :: rest2)
        else
          replCp :: utf8DecodeLossy (c1 :: rest1)
    else
      replCp :: utf8DecodeLossy rest

/-- UTF-8 encoding of one Unicode scalar value. -/
def utf8EncodeCp (v : Nat) : List Nat :=
  if v < 0x80 then [v]
  else if v < 0x800 then [0xC0 + v / 0x40, 0x80 + v % 0x40]
  else if v < 0x10000 then
    [0xE0 + v / 0x1000, 0x80 + v / 0x40 % 0x40, 0x80 + v % 0x40]
  else
    [0xF0 + v / 0x40000, 0x80 + v / 0x1000 % 0x40, 0x80 + v / 0x40 % 0x40,
      0x80 + v % 0x40]

/-- UTF-8 encoding of a sequence of scalar values. -/
def utf8Encode (cps : List Nat) : List Nat := (cps.map utf8EncodeCp).flatten

/-- Scalar values rendered as a Lean `String` (the boundary between the
byte-level model and the `String` fields of a receipt). -/
def cpString (cps : List Nat) : String := String.mk (cps.map Char.ofNat)

/-- `OsStr::to_string_lossy().to_string()` / `String::from_utf8_lossy(..)
.to_string()` on Unix: lossy UTF-8 decoding of the raw bytes. -/
def toStringLossy (bytes : List Nat) : String := cpString (utf8DecodeLossy bytes)

/-! ## Data model (`struct Receipt`, `std::process` results) -/

/-- Termination status of the child process (`std::process::ExitStatus`):
either a normal exit with a code, or death by signal. -/
inductive ExitStatus where
  | exited (code : Int)
  | signaled (signal : Nat)
deriving DecidableEq, Repr

/-- `ExitStatus::code()`: `Some(code)` on normal exit, `None` on signal
termination. -/
def ExitStatus.code : ExitStatus → Option Int
  | .exited c => some c
  | .signaled _ => none

/-- `std::process::Output`: the collected result of `Command::output()`. -/
structure Output where
  status : ExitStatus
  stdout : List Nat
  stderr : List Nat
deriving DecidableEq, Repr

/-- The operating-system oracle for one invocation: the process-creation
facility (`Command::new(cmd).args(args).output()`, fed the raw unconverted
byte tokens; `Except.error` is the spawn failure case), the two wall-clock
samples `Utc::now()` taken before the spawn and after the wait, and the
elapsed monotonic time `Instant::now()..elapsed().as_millis()` in
milliseconds. Wall-clock times are nanoseconds since the Unix epoch as `Int`
(chrono `DateTime<Utc>`). -/
structure Env where
  spawn : List Nat → List (List Nat) → Except String Output
  startTime : Int
  endTime : Int
  monoMs : Nat

/-- Execution receipt containing command metadata and results
(`struct Receipt`, `src/main.rs` lines 35-53). Timestamps are chrono
`DateTime<Utc>` values, modelled as nanoseconds since the Unix epoch. -/
structure Receipt where
  command : String
  args : List String
  exit_code : Option Int
  stdout : String
  stderr : String
  start_time : Int
  end_time : Int
  duration_ms : Nat
deriving DecidableEq, Repr

/-- Errors produced by `execute_command` (`anyhow` errors carrying their
message). -/
inductive ExecError where
  | usage (msg : String)
  | launch (msg : String)
deriving DecidableEq, Repr

/-- The message carried by an `ExecError`. -/
def ExecError.msg : ExecError → String
  | .usage m => m
  | .launch m => m

/-- `execute_command` (`src/main.rs` lines 71-102): bail with a usage error on
an empty command vector; otherwise spawn `command_parts[0]` with the remaining
tokens as arguments (raw bytes passed through), failing with a launch error
naming the attempted executable if the spawn fails; on success assemble the
receipt, lossily decoding the command tokens and the captured output. -/
def execute_command (env : Env) (command_parts : List (List Nat)) :
    Except ExecError Receipt :=
  match command_parts with
  | [] => .error (.usage "No command specified")
  | cmd :: args =>
    match env.spawn cmd args with
    | .error _ =>
      .error (.launch ("Failed to execute command: " ++ toStringLossy cmd))
    | .ok output =>
      .ok { command := toStringLossy cmd
            args := args.map toStringLossy
            exit_code := output.status.code
            stdout := toStringLossy output.stdout
            stderr := toStringLossy output.stderr
            start_time := env.startTime
            end_time := env.endTime
            duration_ms := env.monoMs }

/-! ## File-system model -/

/-- A file-system path as its list of components (`PathBuf`); the empty list
is the empty path. -/
abbrev FsPath := List String

/-- `Path::parent()`: `none` for the empty path, otherwise the path with the
last component removed (the parent of a single component is the empty path,
whose `as_os_str()` is empty). -/
def FsPath.parent (p : FsPath) : Option FsPath :=
  if p.isEmpty then none else some p.dropLast

/-- The non-empty prefixes of a path: the directories `fs::create_dir_all`
brings into existence. -/
def ancestors (p : FsPath) : List FsPath :=
  (List.range p.length).map fun i => p.take (i + 1)

/-- The file-system state: file contents per path, the set of existing
directories, and an error oracle `failPaths` marking paths on which I/O
operations (directory creation, file write) fail. -/
structure FS where
  files : List (FsPath × String)
  dirs : List FsPath
  failPaths : List FsPath
deriving DecidableEq, Repr

/-- Insert a directory if absent (set semantics on the `dirs` list). -/
def insertDir (ds : List FsPath) (d : FsPath) : List FsPath :=
  if d ∈ ds then ds else ds ++ [d]

/-- Insert several directories in order. -/
def insertDirs (ds : List FsPath) (new : List FsPath) : List FsPath :=
  new.foldl insertDir ds

/-- `fs::create_dir_all`: create the directory and all missing ancestors;
succeeds (changing nothing) when they already exist; fails when the error
oracle marks any of the involved paths. -/
def create_dir_all (fs : FS) (p : FsPath) : Except String FS :=
  if (ancestors p).any (fun a => decide (a ∈ fs.failPaths)) then
    .error "io error"
  else
    .ok { fs with dirs := insertDirs fs.dirs (ancestors p) }

/-- Update an association list at a key, overwriting an existing binding and
appending otherwise. -/
def upsert (l : List (FsPath × String)) (k : FsPath) (v : String) :
    List (FsPath × String) :=
  match l with
  | [] => [(k, v)]
  | (k1, v1) :: rest =>
    if k1 = k then (k, v) :: rest else (k1, v1) :: upsert rest k v

/-- Look up a file's contents. -/
def lookupFile (l : List (FsPath × String)) (k : FsPath) : Option String :=
  match l with
  | [] => none
  | (k1, v1) :: rest => if k1 = k then some v1 else lookupFile rest k

/-- `fs::write`: create or truncate-and-overwrite the file at `p`; fails when
the error oracle marks `p`. -/
def fsWrite (fs : FS) (p : FsPath) (contents : String) : Except String FS :=
  if p ∈ fs.failPaths then .error "io error"
  else .ok { fs with files := upsert fs.files p contents }

/-- Errors produced by `write_receipt`, tagged by which `context` produced
them. -/
inductive WriteError where
  | serializeError (msg : String)
  | createDirError (msg : String)
  | ioError (msg : String)
deriving DecidableEq, Repr

/-- `write_receipt` (`src/main.rs` lines 104-122): serialize the receipt
first (the serializer `ser` abstracts `serde_json::to_string_pretty`; on
`none` the function fails before touching the file system), then create the
parent directory chain when the path's parent component is non-empty, then
write the serialized text to the path. The returned `FS` reflects all
effects performed before a failure (directories created before a failed
write persist). -/
def write_receipt (ser : Receipt → Option String) (fs : FS) (path : FsPath)
    (receipt : Receipt) : Except WriteError Unit × FS :=
  match ser receipt with
  | none => (.error (.serializeError "Failed to serialize receipt to JSON"), fs)
  | some json =>
    let dirStep : Except WriteError FS :=
      match FsPath.parent path with
      | none => .ok fs
      | some parent =>
        if parent.isEmpty then .ok fs
        else
          match create_dir_all fs parent with
          | .error e => .error (.createDirError e)
          | .ok fs1 => .ok fs1
    match dirStep with
    | .error e => (.error e, fs)
    | .ok fs1 =>
      match fsWrite fs1 path json with
      | .error e => (.error (.ioError e), fs1)
      | .ok fs2 => (.ok (), fs2)

/-! ## JSON document model (`serde_json`) -/

/-- JSON documents (`serde_json::Value`, restricted to what the receipt
format uses). -/
inductive Json where
  | null : Json
  | num : Int → Json
  | str : String → Json
  | arr : List Json → Json
  | obj : List (String × Json) → Json
deriving Repr

/-- Field lookup in a JSON object (first binding wins, as in `serde_json`). -/
def Json.getField (j : Json) (k : String) : Option Json :=
  match j with
  | .obj kvs => go kvs
  | _ => none
where
  go : List (String × Json) → Option Json
    | [] => none
    | (k1, v) :: rest => if k1 = k then some v else go rest

/-- Serialization of a `Receipt` as a JSON document, field for field in
declaration order (the `serde::Serialize` derive): `Option<i32>` becomes a
number or `null`; the chrono timestamp codec `fmtTs` (RFC 3339 rendering,
external to this repository) is a parameter. -/
def receiptToJson (fmtTs : Int → String) (r : Receipt) : Json :=
  .obj
    [("command", .str r.command),
     ("args", .arr (r.args.map .str)),
     ("exit_code", match r.exit_code with | some c => .num c | none => .null),
     ("stdout", .str r.stdout),
     ("stderr", .str r.stderr),
     ("start_time", .str (fmtTs r.start_time)),
     ("end_time", .str (fmtTs r.end_time)),
     ("duration_ms", .num (r.duration_ms : Int))]

/-- Read a JSON string. -/
def Json.asStr : Json → Option String
  | .str s => some s
  | _ => none

/-- Read a JSON number as an `Int`. -/
def Json.asInt : Json → Option Int
  | .num n => some n
  | _ => none

/-- Read a non-negative JSON number (a `u64` field). -/
def Json.asNat : Json → Option Nat
  | .num n => if 0 ≤ n then some n.toNat else none
  | _ => none

/-- Read an `Option<i32>` field: `null` is `None`, a number is `Some`. -/
def Json.asOptInt : Json → Option (Option Int)
  | .null => some none
  | .num n => some (some n)
  | _ => none

/-- Read an array of strings. -/
def Json.asStrList : Json → Option (List String)
  | .arr xs => xs.mapM Json.asStr
  | _ => none

/-- Deserialization of a `Receipt` from a JSON document (the
`serde::Deserialize` derive): each field is looked up by name (order
insensitive, unknown fields ignored) and coerced to its type; the chrono
timestamp parser `parseTs` is a parameter. -/
def receiptFromJson (parseTs : String → Option Int) (j : Json) :
    Option Receipt :=
  match (j.getField "command").bind Json.asStr,
        (j.getField "args").bind Json.asStrList,
        (j.getField "exit_code").bind Json.asOptInt,
        (j.getField "stdout").bind Json.asStr,
        (j.getField "stderr").bind Json.asStr,
        ((j.getField "start_time").bind Json.asStr).bind parseTs,
        ((j.getField "end_time").bind Json.asStr).bind parseTs,
        (j.getField "duration_ms").bind Json.asNat with
  | some command, some args, some exit_code, some stdout, some stderr,
    some start_time, some end_time, some duration_ms =>
    some { command := command, args := args, exit_code := exit_code,
           stdout := stdout, stderr := stderr, start_time := start_time,
           end_time := end_time, duration_ms := duration_ms }
  | _, _, _, _, _, _, _, _ => none

/-- Minimal JSON string escaping (backslash and double quote). -/
def escapeStr (s : String) : String :=
  String.mk (s.data.flatMap fun c =>
    if c = '\\' ∨ c = '"' then ['\\', c] else [c])

mutual
/-- Rendering of a JSON document to text (`serde_json::to_string_pretty`
up to whitespace). -/
def render : Json → String
  | .null => "null"
  | .num n => toString n
  | .str s => "\"" ++ escapeStr s ++ "\""
  | .arr xs => "[" ++ renderArr xs ++ "]"
  | .obj kvs => "\x7b" ++ renderObj kvs ++ "\x7d"

/-- Render the elements of a JSON array, comma separated. -/
def renderArr : List Json → String
  | [] => ""
  | [x] => render x
  | x :: xs => render x ++ ", " ++ renderArr xs

/-- Render the members of a JSON object, comma separated. -/
def renderObj : List (String × Json) → String
  | [] => ""
  | [(k, v)] => "\"" ++ escapeStr k ++ "\": " ++ render v
  | (k, v) :: kvs =>
    "\"" ++ escapeStr k ++ "\": " ++ render v ++ ", " ++ renderObj kvs
end

/-- `serde_json::to_string_pretty` for receipts: total, never returns
`none`. -/
def to_string_pretty (fmtTs : Int → String) (r : Receipt) : Option String :=
  some (render (receiptToJson fmtTs r))

/-! ## `main` (the `Commands::Run` arm) -/

/-- The body of `main` for `rcpt run` (`src/main.rs` lines 58-67), returning
the wrapper's own process exit code together with the final file-system
state: an error from `execute_command` or `write_receipt` propagates through
`?` and makes `main` return `Err`, which the Rust runtime turns into exit
code 1; on success the wrapper exits with the child's exit code, defaulting
to 1 when the child was terminated by a signal. -/
def rcpt_run (ser : Receipt → Option String) (env : Env) (fs : FS)
    (out : FsPath) (command : List (List Nat)) : Int × FS :=
  match execute_command env command with
  | .error _ => (1, fs)
  | .ok receipt =>
    match write_receipt ser fs out receipt with
    | (.error _, fs1) => (1, fs1)
    | (.ok _, fs1) => (receipt.exit_code.getD 1, fs1)

/-- Modelled from the spec: the argument-parsing step `Cli::parse()`
(`src/main.rs` line 56), whose implementation lives in the external clap v4
library, not in this repository. The `command` argument is declared
`required = true` with `trailing_var_arg = true` (`src/main.rs` lines 29-30),
so an invocation whose trailing command-token list is empty cannot be parsed
into a `Commands::Run` value; clap then prints a usage error on the error
stream and terminates the process with clap's usage-error exit code 2 before
the body of `main` runs. A successful parse yields the output path and the
non-empty command vector unchanged. -/
def clap_parse (out : FsPath) (command : List (List Nat)) :
    Except Int (FsPath × List (List Nat)) :=
  if command.isEmpty then .error 2 else .ok (out, command)

/-- The whole wrapper process: `Cli::parse()` (exiting with clap's code 2 on
a usage error, before any command runs) followed by the `Commands::Run` arm
of `main`. -/
def rcpt_main (ser : Receipt → Option String) (env : Env) (fs : FS)
    (out : FsPath) (command : List (List Nat)) : Int × FS :=
  match clap_parse out command with
  | .error code => (code, fs)
  | .ok (out1, command1) => rcpt_run ser env fs out1 command1

/-! ## Claims -/

/-- Counterexample to C1 as frozen: an invocation with bad arguments (no
command tokens) is rejected by clap before `execute_command` runs, and the
wrapper exits with clap's usage-error code 2 — not 1 as the claim states. -/
theorem claim_C1_exit_code_counterexample :
    (rcpt_main (to_string_pretty toString)
        ⟨fun _ _ => .ok ⟨.exited 0, [], []⟩, 0, 0, 0⟩ ⟨[], [], []⟩
        ["receipt.json"] []).1 = 2 ∧ ((2 : Int) ≠ 1) :=
  ⟨rfl, by decide⟩

/-- C1 (amended): the receipt records exactly the child's exit status; when
the wrapped command exits normally with code `c` and the receipt is written,
the wrapper itself exits with `c`; when the child was terminated by a signal
the wrapper exits 1; when the wrapper fails after parsing (spawn failure or
write failure) it exits 1; and when the arguments cannot be parsed (no
command tokens) clap rejects the invocation before any command runs and the
wrapper exits with clap's usage-error code 2. -/
theorem claim_C1_exit_code_propagation_amended
    (ser : Receipt → Option String) (env : Env) (fs : FS) (out : FsPath)
    (command : List (List Nat)) :
    (∀ cmd args output r, command = cmd :: args →
       env.spawn cmd args = .ok output → execute_command env command = .ok r →
       r.exit_code = output.status.code) ∧
    (∀ r c fs1, execute_command env command = .ok r → r.exit_code = some c →
       write_receipt ser fs out r = (.ok (), fs1) →
       rcpt_main ser env fs out command = (c, fs1)) ∧
    (∀ r fs1, execute_command env command = .ok r → r.exit_code = none →
       write_receipt ser fs out r = (.ok (), fs1) →
       rcpt_main ser env fs out command = (1, fs1)) ∧
    (∀ cmd args e, command = cmd :: args →
       execute_command env command = .error e →
       rcpt_main ser env fs out command = (1, fs)) ∧
    (∀ r e fs1, execute_command env command = .ok r →
       write_receipt ser fs out r = (.error e, fs1) →
       rcpt_main ser env fs out command = (1, fs1)) ∧
    (command = [] → rcpt_main ser env fs out command = (2, fs)) := by
  have hne : ∀ r, execute_command env command = .ok r →
      ∃ cmd args, command = cmd :: args := by
    intro r he
    cases command with
    | nil => simp [execute_command] at he
    | cons cmd args => exact ⟨cmd, args, rfl⟩
  have hmain : ∀ cmd args, command = cmd :: args →
      rcpt_main ser env fs out command = rcpt_run ser env fs out command := by
    rintro cmd args rfl
    simp [rcpt_main, clap_parse]
  refine ⟨?_, ?_, ?_, ?_, ?_, ?_⟩
  · rintro cmd args output r rfl hs he
    simp [execute_command, hs] at he
    subst he
    rfl
  · intro r c fs1 he hc hw
    obtain ⟨cmd, args, hcmd⟩ := hne r he
    rw [hmain cmd args hcmd]
    simp [rcpt_run, he, hw, hc]
  · intro r fs1 he hc hw
    obtain ⟨cmd, args, hcmd⟩ := hne r he
    rw [hmain cmd args hcmd]
    simp [rcpt_run, he, hw, hc]
  · intro cmd args e hcmd he
    rw [hmain cmd args hcmd]
    simp [rcpt_run, he]
  · intro r e fs1 he hw
    obtain ⟨cmd, args, hcmd⟩ := hne r he
    rw [hmain cmd args hcmd]
    simp [rcpt_run, he, hw]
  · rintro rfl
    rfl

/-- Witness for the amended C1 at concrete inputs: a child exiting with code
7 yields wrapper exit code 7; a signal-terminated child yields 1; a failed
spawn yields 1; an invocation with no command tokens yields clap's code 2. -/
theorem claim_C1_exit_code_propagation_amended_witness :
    (rcpt_main (to_string_pretty toString)
        ⟨fun _ _ => .ok ⟨.exited 7, [], []⟩, 0, 10, 3⟩ ⟨[], [], []⟩
        ["r.json"] [[97]]).1 = 7 ∧
    (rcpt_main (to_string_pretty toString)
        ⟨fun _ _ => .ok ⟨.signaled 9, [], []⟩, 0, 10, 3⟩ ⟨[], [], []⟩
        ["r.json"] [[97]]).1 = 1 ∧
    (rcpt_main (to_string_pretty toString)
        ⟨fun _ _ => .error "No such file or directory", 0, 10, 3⟩ ⟨[], [], []⟩
        ["r.json"] [[97]]).1 = 1 ∧
    (rcpt_main (to_string_pretty toString)
        ⟨fun _ _ => .ok ⟨.exited 7, [], []⟩, 0, 10, 3⟩ ⟨[], [], []⟩
        ["r.json"] []).1 = 2 := by
  refine ⟨?_, ?_, ?_, ?_⟩
  · have h := (claim_C1_exit_code_propagation_amended (to_string_pretty toString)
      ⟨fun _ _ => .ok ⟨.exited 7, [], []⟩, 0, 10, 3⟩ ⟨[], [], []⟩
      ["r.json"] [[97]]).2.1
      ⟨"a", [], some 7, "", "", 0, 10, 3⟩ 7
      (write_receipt (to_string_pretty toString) ⟨[], [], []⟩ ["r.json"]
        ⟨"a", [], some 7, "", "", 0, 10, 3⟩).2
      (by rfl) (by rfl) (by rfl)
    rw [h]
  · have h := (claim_C1_exit_code_propagation_amended (to_string_pretty toString)
      ⟨fun _ _ => .ok ⟨.signaled 9, [], []⟩, 0, 10, 3⟩ ⟨[], [], []⟩
      ["r.json"] [[97]]).2.2.1
      ⟨"a", [], none, "", "", 0, 10, 3⟩
      (write_receipt (to_string_pretty toString) ⟨[], [], []⟩ ["r.json"]
        ⟨"a", [], none, "", "", 0, 10, 3⟩).2
      (by rfl) (by rfl) (by rfl)
    rw [h]
  · have h := (claim_C1_exit_code_propagation_amended (to_string_pretty toString)
      ⟨fun _ _ => .error "No such file or directory", 0, 10, 3⟩ ⟨[], [], []⟩
      ["r.json"] [[97]]).2.2.2.1
      [97] []
      (.launch ("Failed to execute command: " ++ toStringLossy [97]))
      rfl (by rfl)
    rw [h]
  · have h := (claim_C1_exit_code_propagation_amended (to_string_pretty toString)
      ⟨fun _ _ => .ok ⟨.exited 7, [], []⟩, 0, 10, 3⟩ ⟨[], [], []⟩
      ["r.json"] []).2.2.2.2.2 rfl
    rw [h]

/-- C2: when the target executable cannot be spawned, `execute_command` fails
with a launch error whose message contains the attempted executable name, no
receipt is produced, the wrapper exits 1 (non-zero), and the file system —
in particular the output path — is left exactly unchanged. -/
theorem claim_C2_spawn_failure (ser : Receipt → Option String) (env : Env)
    (fs : FS) (out : FsPath) (cmd : List Nat) (args : List (List Nat))
    (oserr : String) (hs : env.spawn cmd args = .error oserr) :
    execute_command env (cmd :: args) =
      .error (.launch ("Failed to execute command: " ++ toStringLossy cmd)) ∧
    (∃ pre post, ("Failed to execute command: " ++ toStringLossy cmd : String) =
       pre ++ toStringLossy cmd ++ post) ∧
    rcpt_run ser env fs out (cmd :: args) = (1, fs) ∧
    lookupFile (rcpt_run ser env fs out (cmd :: args)).2.files out =
      lookupFile fs.files out := by
  have he : execute_command env (cmd :: args) =
      .error (.launch ("Failed to execute command: " ++ toStringLossy cmd)) := by
    simp [execute_command, hs]
  refine ⟨he, ⟨"Failed to execute command: ", "", by simp⟩, ?_, ?_⟩
  · simp [rcpt_run, he]
  · simp [rcpt_run, he]

/-- Witness for C2: spawning `/nonexistent/binary` (raw bytes) fails, no
receipt file appears, and the wrapper exits 1. -/
theorem claim_C2_spawn_failure_witness :
    execute_command
        ⟨fun _ _ => .error "No such file or directory", 0, 10, 3⟩
        [[47, 110, 111, 112, 101]] =
      .error (.launch ("Failed to execute command: " ++
        toStringLossy [47, 110, 111, 112, 101])) ∧
    rcpt_run (to_string_pretty toString)
        ⟨fun _ _ => .error "No such file or directory", 0, 10, 3⟩
        ⟨[], [], []⟩ ["r.json"] [[47, 110, 111, 112, 101]] =
      (1, ⟨[], [], []⟩) := by
  have h := claim_C2_spawn_failure (to_string_pretty toString)
    ⟨fun _ _ => .error "No such file or directory", 0, 10, 3⟩
    ⟨[], [], []⟩ ["r.json"] [47, 110, 111, 112, 101] []
    "No such file or directory" (by rfl)
  exact ⟨h.1, h.2.2.1⟩

/-- C7: on an empty command vector `execute_command` fails with a usage
error carrying a non-empty human-readable message — for every environment,
so no child process is consulted — and the wrapper exits 1 with the file
system (hence any receipt path) unchanged. -/
theorem claim_C7_usage_error (ser : Receipt → Option String) (env : Env)
    (fs : FS) (out : FsPath) :
    execute_command env [] = .error (.usage "No command specified") ∧
    (ExecError.usage "No command specified").msg ≠ "" ∧
    rcpt_run ser env fs out [] = (1, fs) := by
  refine ⟨rfl, by simp [ExecError.msg], ?_⟩
  simp [rcpt_run, execute_command]

/-- Witness for C7: a concrete invocation with no command tokens fails with
the usage error and exits 1 without touching the file system. -/
theorem claim_C7_usage_error_witness :
    execute_command ⟨fun _ _ => .ok ⟨.exited 0, [], []⟩, 0, 0, 0⟩ [] =
      .error (.usage "No command specified") ∧
    rcpt_run (to_string_pretty toString)
        ⟨fun _ _ => .ok ⟨.exited 0, [], []⟩, 0, 0, 0⟩ ⟨[], [], []⟩
        ["receipt.json"] [] =
      (1, ⟨[], [], []⟩) := by
  have h := claim_C7_usage_error (to_string_pretty toString)
    ⟨fun _ _ => .ok ⟨.exited 0, [], []⟩, 0, 0, 0⟩ ⟨[], [], []⟩ ["receipt.json"]
  exact ⟨h.1, h.2.2⟩

/-- C9: the tokens handed to the operating system's process-creation call are
the original unconverted bytes (`env.spawn` is applied to `cmd` and `args`
themselves), and on a successful spawn a receipt is always produced — with
no condition on the tokens being valid UTF-8 — whose `command` and `args`
fields are the lossy decodings of those tokens. -/
theorem claim_C9_lossy_tokens (env : Env) (cmd : List Nat)
    (args : List (List Nat)) (output : Output)
    (hs : env.spawn cmd args = .ok output) :
    execute_command env (cmd :: args) =
      .ok { command := toStringLossy cmd
            args := args.map toStringLossy
            exit_code := output.status.code
            stdout := toStringLossy output.stdout
            stderr := toStringLossy output.stderr
            start_time := env.startTime
            end_time := env.endTime
            duration_ms := env.monoMs } := by
  simp [execute_command, hs]

/-- Witness for C9: a command token `[0xFF, 0x61]` (not valid UTF-8) and an
argument `[0xC3]` (truncated UTF-8) still produce a receipt, recording the
replacement character for each invalid sequence. -/
theorem claim_C9_lossy_tokens_witness :
    execute_command
        ⟨fun _ _ => .ok ⟨.exited 0, [104, 105], []⟩, 5, 6, 1⟩
        [[0xFF, 0x61], [0xC3]] =
      .ok { command := "�a"
            args := ["�"]
            exit_code := some 0
            stdout := "hi"
            stderr := ""
            start_time := 5
            end_time := 6
            duration_ms := 1 } := by
  have h := claim_C9_lossy_tokens
    ⟨fun _ _ => .ok ⟨.exited 0, [104, 105], []⟩, 5, 6, 1⟩
    [0xFF, 0x61] [[0xC3]] ⟨.exited 0, [104, 105], []⟩ (by rfl)
  rw [h]
  rfl

/-- C4: the receipt's `duration_ms` is exactly the monotonic-clock
measurement (for every environment, in particular ones where the wall-clock
difference disagrees with it), it is non-negative, both wall-clock
timestamps are recorded as sampled, and whenever the wall clock did not step
backwards across the run (`startTime ≤ endTime`) the receipt satisfies
`end_time ≥ start_time`. -/
theorem claim_C4_duration_monotonic (env : Env) (cmd : List Nat)
    (args : List (List Nat)) (r : Receipt)
    (he : execute_command env (cmd :: args) = .ok r) :
    r.duration_ms = env.monoMs ∧
    0 ≤ r.duration_ms ∧
    r.start_time = env.startTime ∧
    r.end_time = env.endTime ∧
    (env.startTime ≤ env.endTime → r.start_time ≤ r.end_time) := by
  rcases hs : env.spawn cmd args with oserr | output
  · simp [execute_command, hs] at he
  · simp [execute_command, hs] at he
    subst he
    simp

/-- Witness for C4: in an environment whose monotonic clock measured 3 ms
while the wall clock advanced 10 ns, the receipt carries `duration_ms = 3`
(not the wall-clock difference) and `end_time ≥ start_time`. -/
theorem claim_C4_duration_monotonic_witness :
    (⟨"a", [], some 0, "", "", 100, 110, 3⟩ : Receipt).duration_ms = 3 ∧
    (⟨"a", [], some 0, "", "", 100, 110, 3⟩ : Receipt).duration_ms ≠
      ((110 : Int) - 100).toNat ∧
    (⟨"a", [], some 0, "", "", 100, 110, 3⟩ : Receipt).start_time ≤
      (⟨"a", [], some 0, "", "", 100, 110, 3⟩ : Receipt).end_time := by
  have h := claim_C4_duration_monotonic
    ⟨fun _ _ => .ok ⟨.exited 0, [], []⟩, 100, 110, 3⟩ [97] []
    ⟨"a", [], some 0, "", "", 100, 110, 3⟩ (by rfl)
  exact ⟨h.1, by decide, h.2.2.2.2 (by decide)⟩

/-- C10: `write_receipt` serializes before any file-system effect: when the
serializer fails, the result is the serialization error and the returned
file-system state is exactly the input state (no directory created, no file
written). -/
theorem claim_C10_serialize_first (ser : Receipt → Option String) (fs : FS)
    (path : FsPath) (r : Receipt) (hser : ser r = none) :
    write_receipt ser fs path r =
      (.error (.serializeError "Failed to serialize receipt to JSON"), fs) := by
  simp [write_receipt, hser]

/-- Witness for C10: a failing serializer on a concrete receipt and a
non-trivial file system returns the serialization error with the file system
untouched. -/
theorem claim_C10_serialize_first_witness :
    write_receipt (fun _ => none) ⟨[(["x"], "old")], [["d"]], []⟩ ["a", "b"]
        ⟨"a", [], some 0, "", "", 0, 0, 0⟩ =
      (.error (.serializeError "Failed to serialize receipt to JSON"),
        ⟨[(["x"], "old")], [["d"]], []⟩) :=
  claim_C10_serialize_first (fun _ => none) ⟨[(["x"], "old")], [["d"]], []⟩
    ["a", "b"] ⟨"a", [], some 0, "", "", 0, 0, 0⟩ rfl

/-- C3: for every receipt produced by `execute_command`, `exit_code` is
`some c` exactly when the child exited normally with code `c`, `none`
exactly when it was terminated by a signal, and an absent `exit_code`
serializes as JSON `null`. -/
theorem claim_C3_exit_code_presence (env : Env) (cmd : List Nat)
    (args : List (List Nat)) (output : Output) (r : Receipt)
    (fmtTs : Int → String)
    (hs : env.spawn cmd args = .ok output)
    (he : execute_command env (cmd :: args) = .ok r) :
    (∀ c, r.exit_code = some c ↔ output.status = .exited c) ∧
    (r.exit_code = none ↔ ∃ sig, output.status = .signaled sig) ∧
    (r.exit_code = none →
      (receiptToJson fmtTs r).getField "exit_code" = some .null) := by
  simp [execute_command, hs] at he
  subst he
  refine ⟨?_, ?_, ?_⟩
  · intro c
    cases output.status <;> simp [ExitStatus.code]
  · cases output.status <;> simp [ExitStatus.code]
  · intro hc
    simp only at hc
    simp [receiptToJson, Json.getField, Json.getField.go, hc]

/-- Witness for C3: a child terminated by signal 9 yields a receipt whose
`exit_code` is `none`, and the serialized document carries `null` in the
`exit_code` field. -/
theorem claim_C3_exit_code_presence_witness :
    (⟨"a", [], none, "", "", 0, 1, 2⟩ : Receipt).exit_code = none ∧
    (receiptToJson toString (⟨"a", [], none, "", "", 0, 1, 2⟩ : Receipt)).getField
      "exit_code" = some .null := by
  have h := claim_C3_exit_code_presence
    ⟨fun _ _ => .ok ⟨.signaled 9, [], []⟩, 0, 1, 2⟩ [97] []
    ⟨.signaled 9, [], []⟩ ⟨"a", [], none, "", "", 0, 1, 2⟩ toString
    (by rfl) (by rfl)
  exact ⟨h.2.1.mpr ⟨9, rfl⟩, h.2.2 rfl⟩

/-- Coercing back the string array produced by serializing `args` yields the
original list. -/
lemma mapM_loop_asStr (ss acc : List String) :
    List.mapM.loop Json.asStr (ss.map Json.str) acc =
      some (acc.reverse ++ ss) := by
  induction ss generalizing acc with
  | nil => simp [List.mapM.loop]
  | cons s rest ih => simp [List.mapM.loop, Json.asStr, ih]

/-- C8: serializing a receipt to the JSON document and parsing it back yields
the same receipt, field for field, provided the timestamp codec round-trips
on the receipt's two timestamps (chrono's RFC 3339 codec does); an absent
`exit_code` goes through `null` and comes back absent. -/
theorem claim_C8_roundtrip (fmtTs : Int → String)
    (parseTs : String → Option Int) (r : Receipt)
    (h1 : parseTs (fmtTs r.start_time) = some r.start_time)
    (h2 : parseTs (fmtTs r.end_time) = some r.end_time) :
    receiptFromJson parseTs (receiptToJson fmtTs r) = some r := by
  obtain ⟨command, args, exit_code, stdout, stderr, st, et, dm⟩ := r
  simp only at h1 h2
  cases exit_code <;>
    simp [receiptFromJson, receiptToJson, Json.getField, Json.getField.go,
      Json.asStr, Json.asStrList, Json.asOptInt, Json.asNat,
      mapM_loop_asStr, h1, h2]

/-- Witness for C8: a concrete receipt with an absent `exit_code` and a
round-tripping decimal timestamp codec parses back to itself. -/
theorem claim_C8_roundtrip_witness :
    receiptFromJson (fun s => if s = "t100" then some 100 else some 200)
      (receiptToJson (fun t => if t = 100 then "t100" else "t200")
        (⟨"echo", ["hi"], none, "hi\n", "", 100, 200, 7⟩ : Receipt)) =
      some ⟨"echo", ["hi"], none, "hi\n", "", 100, 200, 7⟩ :=
  claim_C8_roundtrip (fun t => if t = 100 then "t100" else "t200")
    (fun s => if s = "t100" then some 100 else some 200)
    ⟨"echo", ["hi"], none, "hi\n", "", 100, 200, 7⟩ (by decide) (by decide)

/-! ### File-system lemmas for C6 -/

lemma mem_insertDir {ds : List FsPath} {x d : FsPath} :
    d ∈ insertDir ds x ↔ d ∈ ds ∨ d = x := by
  unfold insertDir
  by_cases hx : x ∈ ds
  · rw [if_pos hx]
    constructor
    · exact Or.inl
    · rintro (h | rfl)
      · exact h
      · exact hx
  · rw [if_neg hx]
    simp

lemma insertDirs_cons (ds : List FsPath) (x : FsPath) (xs : List FsPath) :
    insertDirs ds (x :: xs) = insertDirs (insertDir ds x) xs := rfl

lemma mem_insertDirs {new : List FsPath} {ds : List FsPath} {d : FsPath} :
    d ∈ insertDirs ds new ↔ d ∈ ds ∨ d ∈ new := by
  induction new generalizing ds with
  | nil => simp [insertDirs]
  | cons x xs ih =>
    rw [insertDirs_cons, ih, mem_insertDir]
    simp [List.mem_cons]
    tauto

lemma insertDirs_eq_self {new ds : List FsPath} (h : ∀ x ∈ new, x ∈ ds) :
    insertDirs ds new = ds := by
  induction new generalizing ds with
  | nil => rfl
  | cons x xs ih =>
    rw [insertDirs_cons]
    have hx : x ∈ ds := h x (by simp)
    rw [show insertDir ds x = ds from if_pos hx]
    exact ih fun y hy => h y (by simp [hy])

lemma lookupFile_upsert_self (l : List (FsPath × String)) (k : FsPath)
    (v : String) : lookupFile (upsert l k v) k = some v := by
  induction l with
  | nil => simp [upsert, lookupFile]
  | cons p rest ih =>
    obtain ⟨k1, v1⟩ := p
    by_cases hk : k1 = k
    · subst hk
      simp [upsert, lookupFile]
    · simp [upsert, lookupFile, hk, ih]

lemma lookupFile_upsert_ne (l : List (FsPath × String)) (k q : FsPath)
    (v : String) (h : q ≠ k) :
    lookupFile (upsert l k v) q = lookupFile l q := by
  induction l with
  | nil => simp [upsert, lookupFile, Ne.symm h]
  | cons p rest ih =>
    obtain ⟨k1, v1⟩ := p
    by_cases hk : k1 = k
    · subst hk
      simp [upsert, lookupFile, Ne.symm h]
    · simp [upsert, lookupFile, hk, ih]

lemma upsert_idem (l : List (FsPath × String)) (k : FsPath) (v : String) :
    upsert (upsert l k v) k v = upsert l k v := by
  induction l with
  | nil => simp [upsert]
  | cons p rest ih =>
    obtain ⟨k1, v1⟩ := p
    by_cases hk : k1 = k
    · subst hk
      simp [upsert]
    · simp [upsert, hk, ih]

/-- C6: on a file system where the involved paths are not marked as failing,
`write_receipt` succeeds; it creates the parent directory chain exactly when
the destination's parent component is non-empty (and otherwise leaves the
directory set unchanged); it writes the serialized receipt at the
destination, overwriting whatever was there while preserving every other
file; and the whole operation is idempotent — running it again on the
resulting state succeeds and changes nothing. -/
theorem claim_C6_write_receipt_dirs (fmtTs : Int → String) (fs : FS)
    (path : FsPath) (r : Receipt)
    (hw : path ∉ fs.failPaths)
    (hd : ∀ a ∈ ancestors path.dropLast, a ∉ fs.failPaths) :
    (write_receipt (to_string_pretty fmtTs) fs path r).1 = .ok () ∧
    lookupFile (write_receipt (to_string_pretty fmtTs) fs path r).2.files path =
      some (render (receiptToJson fmtTs r)) ∧
    (∀ q, q ≠ path →
      lookupFile (write_receipt (to_string_pretty fmtTs) fs path r).2.files q =
        lookupFile fs.files q) ∧
    (∀ d, d ∈ (write_receipt (to_string_pretty fmtTs) fs path r).2.dirs ↔
      d ∈ fs.dirs ∨ (path.dropLast ≠ [] ∧ d ∈ ancestors path.dropLast)) ∧
    (path.dropLast = [] →
      (write_receipt (to_string_pretty fmtTs) fs path r).2.dirs = fs.dirs) ∧
    (write_receipt (to_string_pretty fmtTs) fs path r).2.failPaths =
      fs.failPaths ∧
    write_receipt (to_string_pretty fmtTs)
        (write_receipt (to_string_pretty fmtTs) fs path r).2 path r =
      (.ok (), (write_receipt (to_string_pretty fmtTs) fs path r).2) := by
  by_cases hp : path.dropLast = []
  · have hred : write_receipt (to_string_pretty fmtTs) fs path r =
        (.ok (), FS.mk
          (upsert fs.files path (render (receiptToJson fmtTs r)))
          fs.dirs fs.failPaths) := by
      by_cases hnil : path = []
      · subst hnil
        simp [write_receipt, to_string_pretty, FsPath.parent, fsWrite, hw]
      · simp [write_receipt, to_string_pretty, FsPath.parent, fsWrite, hw,
          hnil, hp, List.isEmpty_iff]
    rw [hred]
    refine ⟨rfl, lookupFile_upsert_self _ _ _,
      fun q hq => lookupFile_upsert_ne _ _ _ _ hq,
      fun d => by simp [hp], fun _ => rfl, rfl, ?_⟩
    by_cases hnil : path = []
    · subst hnil
      simp [write_receipt, to_string_pretty, FsPath.parent, fsWrite, hw,
        upsert_idem]
    · simp [write_receipt, to_string_pretty, FsPath.parent, fsWrite, hw,
        hnil, hp, List.isEmpty_iff, upsert_idem]
  · have hnil : path ≠ [] := fun h => hp (by simp [h])
    have hany : ((ancestors path.dropLast).any
        fun a => decide (a ∈ fs.failPaths)) = false := by
      simp only [List.any_eq_false, decide_eq_true_eq]
      exact hd
    have hred : write_receipt (to_string_pretty fmtTs) fs path r =
        (.ok (), FS.mk
          (upsert fs.files path (render (receiptToJson fmtTs r)))
          (insertDirs fs.dirs (ancestors path.dropLast))
          fs.failPaths) := by
      simp [write_receipt, to_string_pretty, FsPath.parent, create_dir_all,
        fsWrite, hw, hnil, hp, List.isEmpty_iff, hany]
    rw [hred]
    refine ⟨rfl, lookupFile_upsert_self _ _ _,
      fun q hq => lookupFile_upsert_ne _ _ _ _ hq,
      fun d => by simp [hp, mem_insertDirs], fun h => absurd h hp, rfl, ?_⟩
    have hidem : insertDirs (insertDirs fs.dirs (ancestors path.dropLast))
        (ancestors path.dropLast) =
        insertDirs fs.dirs (ancestors path.dropLast) :=
      insertDirs_eq_self fun x hx => mem_insertDirs.mpr (Or.inr hx)
    simp [write_receipt, to_string_pretty, FsPath.parent, create_dir_all,
      fsWrite, hw, hnil, hp, List.isEmpty_iff, hany, hidem, upsert_idem]

/-- Witness for C6 at a concrete nested destination `a/b/c.json` over a file
system that already holds an old file at that path: the write succeeds, the
directories `a` and `a/b` are created, the old contents are overwritten, an
unrelated file is untouched, and a second identical write changes nothing. -/
theorem claim_C6_write_receipt_dirs_witness :
    (write_receipt (to_string_pretty toString)
        ⟨[(["a", "b", "c.json"], "old"), (["z"], "keep")], [], []⟩
        ["a", "b", "c.json"] ⟨"x", [], some 2, "", "", 0, 0, 0⟩).1 =
      .ok () ∧
    lookupFile (write_receipt (to_string_pretty toString)
        ⟨[(["a", "b", "c.json"], "old"), (["z"], "keep")], [], []⟩
        ["a", "b", "c.json"] ⟨"x", [], some 2, "", "", 0, 0, 0⟩).2.files
        ["a", "b", "c.json"] =
      some (render (receiptToJson toString
        (⟨"x", [], some 2, "", "", 0, 0, 0⟩ : Receipt))) ∧
    lookupFile (write_receipt (to_string_pretty toString)
        ⟨[(["a", "b", "c.json"], "old"), (["z"], "keep")], [], []⟩
        ["a", "b", "c.json"] ⟨"x", [], some 2, "", "", 0, 0, 0⟩).2.files
        ["z"] = some "keep" ∧
    (["a"] ∈ (write_receipt (to_string_pretty toString)
        ⟨[(["a", "b", "c.json"], "old"), (["z"], "keep")], [], []⟩
        ["a", "b", "c.json"] ⟨"x", [], some 2, "", "", 0, 0, 0⟩).2.dirs ∧
     ["a", "b"] ∈ (write_receipt (to_string_pretty toString)
        ⟨[(["a", "b", "c.json"], "old"), (["z"], "keep")], [], []⟩
        ["a", "b", "c.json"] ⟨"x", [], some 2, "", "", 0, 0, 0⟩).2.dirs) ∧
    write_receipt (to_string_pretty toString)
        (write_receipt (to_string_pretty toString)
          ⟨[(["a", "b", "c.json"], "old"), (["z"], "keep")], [], []⟩
          ["a", "b", "c.json"] ⟨"x", [], some 2, "", "", 0, 0, 0⟩).2
        ["a", "b", "c.json"] ⟨"x", [], some 2, "", "", 0, 0, 0⟩ =
      (.ok (), (write_receipt (to_string_pretty toString)
          ⟨[(["a", "b", "c.json"], "old"), (["z"], "keep")], [], []⟩
          ["a", "b", "c.json"] ⟨"x", [], some 2, "", "", 0, 0, 0⟩).2) := by
  have h := claim_C6_write_receipt_dirs toString
    ⟨[(["a", "b", "c.json"], "old"), (["z"], "keep")], [], []⟩
    ["a", "b", "c.json"] ⟨"x", [], some 2, "", "", 0, 0, 0⟩
    (by decide) (by decide)
  refine ⟨h.1, h.2.1, ?_, ?_, h.2.2.2.2.2.2⟩
  · rw [h.2.2.1 ["z"] (by decide)]
    rfl
  · constructor
    · exact (h.2.2.2.1 ["a"]).mpr (Or.inr ⟨by decide, by decide⟩)
    · exact (h.2.2.2.1 ["a", "b"]).mpr (Or.inr ⟨by decide, by decide⟩)

/-! ### Lossy-decoder lemmas for C5

One reduction lemma per well-formed sequence length, then the two round-trip
directions: well-formed input decodes exactly, and any decoding that contains
no replacement character re-encodes to the original bytes (so every
deviation from exact decoding is flagged by a replacement character). -/

lemma utf8Encode_cons (v : Nat) (l : List Nat) :
    utf8Encode (v :: l) = utf8EncodeCp v ++ utf8Encode l := by
  simp [utf8Encode]

lemma decode_cons1 (b : Nat) (hb : b < 0x80) (tl : List Nat) :
    utf8DecodeLossy (b :: tl) = b :: utf8DecodeLossy tl := by
  rw [utf8DecodeLossy.eq_def]
  simp [hb]

lemma decode_cons2 (b c1 : Nat) (hb : 0xC2 ≤ b ∧ b ≤ 0xDF)
    (hc1 : 0x80 ≤ c1 ∧ c1 ≤ 0xBF) (tl : List Nat) :
    utf8DecodeLossy (b :: c1 :: tl) =
      ((b - 0xC0) * 0x40 + (c1 - 0x80)) :: utf8DecodeLossy tl := by
  rw [utf8DecodeLossy.eq_def]
  simp
  repeat' split
  all_goals first
    | (exfalso; omega)
    | rfl

lemma decode_cons3 (b c1 c2 : Nat) (hb : 0xE0 ≤ b ∧ b ≤ 0xEF)
    (hc1 : (b = 0xE0 ∧ 0xA0 ≤ c1 ∧ c1 ≤ 0xBF) ∨
      (b = 0xED ∧ 0x80 ≤ c1 ∧ c1 ≤ 0x9F) ∨
      (b ≠ 0xE0 ∧ b ≠ 0xED ∧ 0x80 ≤ c1 ∧ c1 ≤ 0xBF))
    (hc2 : 0x80 ≤ c2 ∧ c2 ≤ 0xBF) (tl : List Nat) :
    utf8DecodeLossy (b :: c1 :: c2 :: tl) =
      ((b - 0xE0) * 0x1000 + (c1 - 0x80) * 0x40 + (c2 - 0x80)) ::
        utf8DecodeLossy tl := by
  rw [utf8DecodeLossy.eq_def]
  simp
  repeat' split
  all_goals first
    | (exfalso; omega)
    | rfl

lemma decode_cons4 (b c1 c2 c3 : Nat) (hb : 0xF0 ≤ b ∧ b ≤ 0xF4)
    (hc1 : (b = 0xF0 ∧ 0x90 ≤ c1 ∧ c1 ≤ 0xBF) ∨
      (b = 0xF4 ∧ 0x80 ≤ c1 ∧ c1 ≤ 0x8F) ∨
      (b ≠ 0xF0 ∧ b ≠ 0xF4 ∧ 0x80 ≤ c1 ∧ c1 ≤ 0xBF))
    (hc2 : 0x80 ≤ c2 ∧ c2 ≤ 0xBF) (hc3 : 0x80 ≤ c3 ∧ c3 ≤ 0xBF)
    (tl : List Nat) :
    utf8DecodeLossy (b :: c1 :: c2 :: c3 :: tl) =
      ((b - 0xF0) * 0x40000 + (c1 - 0x80) * 0x1000 + (c2 - 0x80) * 0x40 +
          (c3 - 0x80)) :: utf8DecodeLossy tl := by
  rw [utf8DecodeLossy.eq_def]
  simp
  repeat' split
  all_goals first
    | (exfalso; omega)
    | rfl

/-- Well-formed scalar values decode back from their encoding, one code point
at a time. -/
lemma decode_encode_cp (v : Nat) (hv : ValidCp v) (tl : List Nat) :
    utf8DecodeLossy (utf8EncodeCp v ++ tl) = v :: utf8DecodeLossy tl := by
  unfold ValidCp at hv
  unfold utf8EncodeCp
  by_cases ha : v < 0x80
  · rw [if_pos ha]
    simpa using decode_cons1 v ha tl
  · rw [if_neg ha]
    by_cases hb : v < 0x800
    · rw [if_pos hb]
      have h := decode_cons2 (0xC0 + v / 0x40) (0x80 + v % 0x40)
        (by omega) (by omega) tl
      simp only [List.cons_append, List.nil_append]
      rw [h]
      simp only [List.cons.injEq, and_true]
      omega
    · rw [if_neg hb]
      by_cases hc : v < 0x10000
      · rw [if_pos hc]
        have h := decode_cons3 (0xE0 + v / 0x1000) (0x80 + v / 0x40 % 0x40)
          (0x80 + v % 0x40) (by omega) (by omega) (by omega) tl
        simp only [List.cons_append, List.nil_append]
        rw [h]
        simp only [List.cons.injEq, and_true]
        omega
      · rw [if_neg hc]
        have h := decode_cons4 (0xF0 + v / 0x40000) (0x80 + v / 0x1000 % 0x40)
          (0x80 + v / 0x40 % 0x40) (0x80 + v % 0x40)
          (by omega) (by omega) (by omega) (by omega) tl
        simp only [List.cons_append, List.nil_append]
        rw [h]
        simp only [List.cons.injEq, and_true]
        omega

/-- A sequence of Unicode scalar values survives encoding followed by lossy
decoding unchanged: on well-formed input the decoder never substitutes
anything. -/
lemma utf8_decode_encode (cps : List Nat) (h : ∀ v ∈ cps, ValidCp v) :
    utf8DecodeLossy (utf8Encode cps) = cps := by
  induction cps with
  | nil => rfl
  | cons v rest ih =>
    rw [utf8Encode_cons, decode_encode_cp v (h v (by simp)),
      ih fun x hx => h x (by simp [hx])]

/-- If the lossy decoding of a byte list contains no replacement character,
then the input was well-formed and the decoding was exact: re-encoding the
decoded scalar values reproduces the input bytes. Every ill-formed input is
therefore flagged by at least one replacement character. -/
lemma utf8_encode_decode (bs : List Nat) :
    replCp ∉ utf8DecodeLossy bs → utf8Encode (utf8DecodeLossy bs) = bs := by
  induction bs using utf8DecodeLossy.induct
  case case1 =>
    intro _
    rfl
  case case2 b rest hb ih =>
    intro h
    rw [decode_cons1 b hb] at h ⊢
    simp only [List.mem_cons, not_or] at h
    rw [utf8Encode_cons, ih h.2]
    unfold utf8EncodeCp
    rw [if_pos hb]
    simp
  case case4 b hb1 hb2 c1 rest hc1 ih =>
    intro h
    rw [decode_cons2 b c1 hb2 hc1] at h ⊢
    simp only [List.mem_cons, not_or] at h
    rw [utf8Encode_cons, ih h.2]
    unfold utf8EncodeCp
    rw [if_neg (by omega), if_pos (by omega)]
    simp
    constructor <;> omega
  case case8 b hb1 hb2 hb3 c1 hc1 c2 rest hc2 ih =>
    intro h
    rw [decode_cons3 b c1 c2 hb3 hc1 hc2] at h ⊢
    simp only [List.mem_cons, not_or] at h
    rw [utf8Encode_cons, ih h.2]
    unfold utf8EncodeCp
    rw [if_neg (by omega), if_neg (by omega), if_pos (by omega)]
    simp
    refine ⟨by omega, by omega, by omega⟩
  case case14 b hb1 hb2 hb3 hb4 c1 hc1 c2 hc2 c3 rest hc3 ih =>
    intro h
    rw [decode_cons4 b c1 c2 c3 hb4 hc1 hc2 hc3] at h ⊢
    simp only [List.mem_cons, not_or] at h
    rw [utf8Encode_cons, ih h.2]
    unfold utf8EncodeCp
    rw [if_neg (by omega), if_neg (by omega), if_neg (by omega)]
    simp
    refine ⟨by omega, by omega, by omega, by omega⟩
  all_goals
    intro h
    exfalso
    apply h
    rw [utf8DecodeLossy.eq_def]
    simp
    repeat' split
    all_goals first
      | (exfalso; omega)
      | simp

/-- C5: the decoding of captured output is total — a successful spawn always
yields a receipt whose `stdout`/`stderr` are the lossy decodings of the raw
captured bytes, whatever those bytes are; on well-formed input the decoder
is exact (encoding round-trips), and whenever the decoding contains no
replacement marker it was exact — so precisely the ill-formed sequences are
replaced by the marker. -/
theorem claim_C5_lossy_decode_total :
    (∀ env cmd args output, Env.spawn env cmd args = .ok output →
       execute_command env (cmd :: args) =
         .ok { command := toStringLossy cmd
               args := args.map toStringLossy
               exit_code := output.status.code
               stdout := toStringLossy output.stdout
               stderr := toStringLossy output.stderr
               start_time := env.startTime
               end_time := env.endTime
               duration_ms := env.monoMs }) ∧
    (∀ cps, (∀ v ∈ cps, ValidCp v) → utf8DecodeLossy (utf8Encode cps) = cps) ∧
    (∀ bs, replCp ∉ utf8DecodeLossy bs →
       utf8Encode (utf8DecodeLossy bs) = bs) :=
  ⟨fun env cmd args output hs => by simp [execute_command, hs],
   utf8_decode_encode, utf8_encode_decode⟩

/-- Witness for C5: arbitrary invalid bytes in the captured output still
yield a receipt (with replacement characters in `stdout`/`stderr`); a
concrete well-formed scalar sequence round-trips through encoding; a
concrete well-formed byte string is decoded exactly. -/
theorem claim_C5_lossy_decode_total_witness :
    execute_command ⟨fun _ _ => .ok ⟨.exited 0, [0xFF, 0x68], [0x80]⟩, 0, 1, 2⟩
        [[97]] =
      .ok { command := "a", args := [], exit_code := some 0, stdout := "�h",
            stderr := "�", start_time := 0, end_time := 1, duration_ms := 2 } ∧
    utf8DecodeLossy (utf8Encode [0x61, 0xE9, 0x20AC, 0x1F600]) =
      [0x61, 0xE9, 0x20AC, 0x1F600] ∧
    utf8Encode (utf8DecodeLossy [0x61, 0xC3, 0xA9]) = [0x61, 0xC3, 0xA9] := by
  refine ⟨?_, claim_C5_lossy_decode_total.2.1 _ (by decide),
    claim_C5_lossy_decode_total.2.2 _ (by decide)⟩
  have h := claim_C5_lossy_decode_total.1
    ⟨fun _ _ => .ok ⟨.exited 0, [0xFF, 0x68], [0x80]⟩, 0, 1, 2⟩
    [97] [] ⟨.exited 0, [0xFF, 0x68], [0x80]⟩ (by rfl)
  rw [h]
  rfl

end AgentReceipts
